import Mathlib

/-!
Verification of the core of `zk-slot-timeline-soundness` (`src/app.py`)
against its specification, via a shallow embedding in Lean.

Conventions of the embedding:
* Python ints are `Int` (block numbers, CLI arguments) or `Nat`
  (slot indices, byte values, lengths, exit codes).
* The raw bytes returned by `w3.eth.get_storage_at` are a `List Nat`
  of byte values; `HexBytes.hex()` is the 0x-prefixed lowercase hex
  rendering of those bytes.
* The RPC connection `w3` is an oracle
  `String → Nat → Int → Except String (List Nat)`
  (address, slot index, block id ↦ raw bytes, or the message of the
  raised exception).
* Python exceptions are `Except String`; an uncaught exception makes
  the interpreter exit with status 1.
-/

/-- One hexadecimal digit, lowercase, as produced by CPython's
`bytes.hex()` (digits `0`-`9` then `a`-`f`). `n` is a nibble. -/
def hexDigit (n : Nat) : Char :=
  if n < 10 then Char.ofNat (48 + n) else Char.ofNat (87 + n)

/-- The two hex digits of one byte. -/
def byteHex (b : Nat) : String :=
  ⟨[hexDigit (b / 16 % 16), hexDigit (b % 16)]⟩

/-- `HexBytes.hex()` applied to the raw storage bytes: the 0x-prefixed
lowercase hex string compared and displayed by the tool (`app.py` line 68,
spec §4.2 "represented as a hex string for comparison and display"). -/
def bytes_hex (bs : List Nat) : String :=
  "0x" ++ String.join (bs.map byteHex)

/-- `app.py` lines 66-68, `get_storage_at`: query the reader and render
the raw bytes as hex; a reader failure propagates as the exception. -/
def get_storage_at (w3 : String → Nat → Int → Except String (List Nat))
    (address : String) (slot : Nat) (block_id : Int) : Except String String :=
  match w3 address slot block_id with
  | Except.ok raw => Except.ok (bytes_hex raw)
  | Except.error e => Except.error e

/-- `app.py` line 97: the in-band error representation
`f"ERROR:{e}"` recorded when a storage query raises. -/
def error_str (e : String) : String :=
  "ERROR:" ++ e

/-- `app.py` line 83: `blocks = list(range(start_block, end_block + 1, step))`,
the sampled block sequence (Python `range` with a positive step; `main`
rejects `step <= 0` at line 137 before this is ever evaluated, and this
model returns `[]` there). -/
def blockList (start_block end_block step : Int) : List Int :=
  if 0 < step then
    let n : Nat :=
      if start_block ≤ end_block then
        (end_block - start_block).toNat / step.toNat + 1
      else 0
    (List.range n).map (fun (k : Nat) => start_block + (k : Int) * step)
  else []

/-- C2: for `start ≤ end` and `stride > 0` the sampled block sequence is
strictly ascending, starts at `start`, each element is congruent to
`start` modulo `stride` and at most `end`, and its length is
`(end - start) / stride + 1` (floor division). -/
theorem blockList_spec (s e st : Int) (hse : s ≤ e) (hst : 0 < st) :
    (blockList s e st).Pairwise (· < ·) ∧
    (blockList s e st).head? = some s ∧
    (∀ x ∈ blockList s e st, x % st = s % st ∧ x ≤ e) ∧
    ((blockList s e st).length : Int) = (e - s) / st + 1 := by
  have hstn : (st.toNat : Int) = st := Int.toNat_of_nonneg (le_of_lt hst)
  have hesn : ((e - s).toNat : Int) = e - s := Int.toNat_of_nonneg (by omega)
  have hblocks : blockList s e st =
      (List.range ((e - s).toNat / st.toNat + 1)).map
        (fun (k : Nat) => s + (k : Int) * st) := by
    simp [blockList, hst, hse]
  refine ⟨?_, ?_, ?_, ?_⟩
  · rw [hblocks]
    refine List.Pairwise.map _ ?_ (List.pairwise_lt_range _)
    intro a b hab
    have : (a : Int) * st < (b : Int) * st := by
      apply mul_lt_mul_of_pos_right _ hst
      exact_mod_cast hab
    omega
  · rw [hblocks, List.range_succ_eq_map]
    simp
  · intro x hx
    rw [hblocks] at hx
    rcases List.mem_map.mp hx with ⟨k, hk, rfl⟩
    have hklt : k < (e - s).toNat / st.toNat + 1 := List.mem_range.mp hk
    have hkle : k ≤ (e - s).toNat / st.toNat := Nat.lt_succ_iff.mp hklt
    have hmul : k * st.toNat ≤ (e - s).toNat :=
      (Nat.le_div_iff_mul_le (by omega)).mp hkle
    have hmul' : (k : Int) * st ≤ e - s := by
      have h := Int.ofNat_le.mpr hmul
      push_cast at h
      rw [hstn, hesn] at h
      exact h
    constructor
    · simp [Int.add_mul_emod_self]
    · omega
  · rw [hblocks]
    have hdiv : (((e - s).toNat / st.toNat : Nat) : Int) = (e - s) / st := by
      rw [Int.ofNat_ediv, hstn, hesn]
    simp only [List.length_map, List.length_range]
    push_cast
    omega

/-- Witness for `blockList_spec` at `(start, end, stride) = (1000, 2000, 500)`
(the spec's Scenario B sampling `[1000, 1500, 2000]`). -/
theorem blockList_spec_witness :
    ((1000 : Int) ≤ 2000 ∧ (0 : Int) < 500) ∧
    ((blockList 1000 2000 500).Pairwise (· < ·) ∧
      (blockList 1000 2000 500).head? = some 1000 ∧
      (∀ x ∈ blockList 1000 2000 500, x % 500 = 1000 % 500 ∧ x ≤ 2000) ∧
      ((blockList 1000 2000 500).length : Int) = (2000 - 1000) / 500 + 1) :=
  ⟨⟨by decide, by decide⟩, blockList_spec 1000 2000 500 (by decide) (by decide)⟩

/-- `app.py` lines 106-112, the loop body of `summarize_changes`:
`prev` is the Python `Optional[str]` accumulator (initially `None`);
a string never equals `None`, so the guard `val != prev` is
`some val ≠ prev`. -/
def summarize_go : Option String → List (Int × String) → List (Int × String)
  | _, [] => []
  | prev, (block, val) :: rest =>
    if some val ≠ prev then (block, val) :: summarize_go (some val) rest
    else summarize_go prev rest

/-- `app.py` lines 102-112, `summarize_changes`: collapse a per-slot
series to its change points. -/
def summarize_changes (series : List (Int × String)) : List (Int × String) :=
  summarize_go none series

theorem summarize_go_head_ne (s : List (Int × String)) :
    ∀ (prev : Option String) (x : Int × String),
      (summarize_go prev s).head? = some x → some x.2 ≠ prev := by
  induction s with
  | nil => intro prev x hx; simp [summarize_go] at hx
  | cons p rest ih =>
    intro prev x hx
    obtain ⟨b, v⟩ := p
    by_cases h : some v ≠ prev
    · simp [summarize_go, h] at hx
      subst hx
      exact h
    · simp [summarize_go, h] at hx
      exact ih prev x hx

theorem summarize_go_chain (s : List (Int × String)) :
    ∀ prev : Option String,
      (summarize_go prev s).Chain' (fun a b => a.2 ≠ b.2) := by
  induction s with
  | nil => intro prev; simp [summarize_go]
  | cons p rest ih =>
    intro prev
    obtain ⟨b, v⟩ := p
    by_cases h : some v ≠ prev
    · simp only [summarize_go]
      rw [if_pos h, List.chain'_cons']
      refine ⟨?_, ih (some v)⟩
      intro y hy
      have := summarize_go_head_ne rest (some v) y hy
      intro hvy
      exact this (congrArg some hvy.symm)
    · simp only [summarize_go]
      rw [if_neg h]
      exact ih prev

theorem summarize_go_fixed (l : List (Int × String)) :
    ∀ prev : Option String,
      l.Chain' (fun a b => a.2 ≠ b.2) →
      (∀ x : Int × String, l.head? = some x → some x.2 ≠ prev) →
      summarize_go prev l = l := by
  induction l with
  | nil => intro prev _ _; rfl
  | cons p rest ih =>
    intro prev hchain hhead
    obtain ⟨b, v⟩ := p
    have hv : some v ≠ prev := hhead (b, v) rfl
    simp only [summarize_go]
    rw [if_pos hv]
    rw [List.chain'_cons'] at hchain
    congr 1
    refine ih (some v) hchain.2 ?_
    intro x hx
    have := hchain.1 x hx
    simp only [ne_eq, Option.some.injEq]
    intro hxv
    exact this hxv.symm

theorem summarize_go_sublist (s : List (Int × String)) :
    ∀ prev : Option String, List.Sublist (summarize_go prev s) s := by
  induction s with
  | nil => intro prev; exact List.Sublist.refl []
  | cons p rest ih =>
    intro prev
    obtain ⟨b, v⟩ := p
    by_cases h : some v ≠ prev
    · simp only [summarize_go]
      rw [if_pos h]
      exact List.Sublist.cons₂ (b, v) (ih (some v))
    · simp only [summarize_go]
      rw [if_neg h]
      exact List.Sublist.cons (b, v) (ih prev)

theorem summarize_changes_ne_nil (s : List (Int × String)) (hs : s ≠ []) :
    summarize_changes s ≠ [] := by
  obtain ⟨⟨b, v⟩, rest, rfl⟩ := List.exists_cons_of_ne_nil hs
  simp [summarize_changes, summarize_go]

/-- C3: on a non-empty series `summarize_changes` returns a non-empty
subsequence of the series whose first element is the first observation
of the series and in which no two adjacent retained observations have
equal outcomes. -/
theorem summarize_changes_spec (s : List (Int × String)) (hs : s ≠ []) :
    summarize_changes s ≠ [] ∧
    List.Sublist (summarize_changes s) s ∧
    (summarize_changes s).head? = s.head? ∧
    (summarize_changes s).Chain' (fun a b => a.2 ≠ b.2) := by
  refine ⟨summarize_changes_ne_nil s hs, summarize_go_sublist s none, ?_,
    summarize_go_chain s none⟩
  obtain ⟨⟨b, v⟩, rest, rfl⟩ := List.exists_cons_of_ne_nil hs
  simp [summarize_changes, summarize_go]

/-- Witness for `summarize_changes_spec` on the spec's Scenario C series. -/
theorem summarize_changes_spec_witness :
    ([((1000 : Int), "0x01"), (1500, "ERROR:timeout"), (2000, "0x01")] ≠
        ([] : List (Int × String))) ∧
    (summarize_changes [((1000 : Int), "0x01"), (1500, "ERROR:timeout"), (2000, "0x01")] ≠ [] ∧
      List.Sublist
        (summarize_changes [((1000 : Int), "0x01"), (1500, "ERROR:timeout"), (2000, "0x01")])
        [((1000 : Int), "0x01"), (1500, "ERROR:timeout"), (2000, "0x01")] ∧
      (summarize_changes [((1000 : Int), "0x01"), (1500, "ERROR:timeout"), (2000, "0x01")]).head? =
        [((1000 : Int), "0x01"), (1500, "ERROR:timeout"), (2000, "0x01")].head? ∧
      (summarize_changes [((1000 : Int), "0x01"), (1500, "ERROR:timeout"), (2000, "0x01")]).Chain'
        (fun a b => a.2 ≠ b.2)) :=
  ⟨by decide,
    summarize_changes_spec [((1000 : Int), "0x01"), (1500, "ERROR:timeout"), (2000, "0x01")]
      (by decide)⟩

/-- C4: `summarize_changes` is idempotent on every series, empty or not. -/
theorem summarize_changes_idempotent (s : List (Int × String)) :
    summarize_changes (summarize_changes s) = summarize_changes s := by
  apply summarize_go_fixed
  · exact summarize_go_chain s none
  · intro x _
    simp

/-- C9: on the empty series `summarize_changes` returns the empty list,
so the non-emptiness guarantee of the spec needs a non-empty Timeline. -/
theorem summarize_changes_nil : summarize_changes [] = [] := rfl

theorem bytes_hex_data (bs : List Nat) :
    (bytes_hex bs).data = '0' :: 'x' :: (String.join (bs.map byteHex)).data := by
  simp [bytes_hex, String.data_append]

theorem error_str_data (e : String) :
    (error_str e).data = 'E' :: 'R' :: 'R' :: 'O' :: 'R' :: ':' :: e.data := by
  simp [error_str, String.data_append]

/-- C5: the hex rendering of a successful read never equals the in-band
error string of a failed read, whatever the bytes and the message: the
former starts with `0`, the latter with `E`. -/
theorem value_ne_error (bs : List Nat) (e : String) :
    bytes_hex bs ≠ error_str e := by
  intro h
  have hd : (bytes_hex bs).data = (error_str e).data := by rw [h]
  rw [bytes_hex_data, error_str_data] at hd
  exact absurd (List.head_eq_of_cons_eq hd) (by decide)

/-- `app.py` line 82: `out = {lbl: [] for lbl, _ in slots}` — the
insertion-ordered dict of empty per-label series; a duplicate label keeps
its first position and still maps to one (shared) list. -/
def init_out (slots : List (String × Nat)) : List (String × List (Int × String)) :=
  slots.foldl
    (fun out p => if out.any (fun q => q.1 == p.1) then out else out ++ [(p.1, [])])
    []

/-- `app.py` line 98: `out[lbl].append((b, val))` on the dict modelled as
an association list with unique keys. -/
def append_obs (out : List (String × List (Int × String))) (lbl : String)
    (obs : Int × String) : List (String × List (Int × String)) :=
  out.map (fun q => if q.1 = lbl then (q.1, q.2 ++ [obs]) else q)

/-- `app.py` lines 94-97: the try/except body of the scan — the value on
success, `f"ERROR:{e}"` on a reader failure. -/
def sample_at (w3 : String → Nat → Int → Except String (List Nat))
    (address : String) (idx : Nat) (b : Int) : String :=
  match get_storage_at w3 address idx b with
  | Except.ok v => v
  | Except.error e => error_str e

/-- `app.py` lines 71-99, `scan_timeline`, as the source behaves. The
progress lines 88-92 are mis-indented (they sit at function level after
the loop header, so the file as written does not even parse: line 93 is
an unexpected indent); read as the per-block progress body — the reading
the spec's §9 documents as "a module-level timing variable referenced
inside a loop without being initialized in scope" — the first iteration
evaluates `time.time() - start_time` with `start_time` bound nowhere in
the module and raises `NameError` before any storage query. Hence: an
empty block list yields the initialized empty timelines; a non-empty one
raises. The second component counts `get_storage_at` calls performed:
none are ever reached. (The modelled message omits Python's quotation
marks around the variable name.) -/
def scan_timeline (w3 : String → Nat → Int → Except String (List Nat))
    (address : String) (slots : List (String × Nat))
    (start_block end_block step : Int) :
    Except String (List (String × List (Int × String))) × Nat :=
  match blockList start_block end_block step with
  | [] => (Except.ok (init_out slots), 0)
  | _ :: _ => (Except.error "NameError: name start_time is not defined", 0)

/-- Modelled from the spec: §4.2's scan loop with the §9 repair — the
progress side channel reads an explicitly captured start time and is
advisory, so the loop of `app.py` lines 85-98 reduces to: for each
sampled block, for each slot, append the sampled value (or in-band
error) to that label's series. -/
def scan_timeline_fixed (w3 : String → Nat → Int → Except String (List Nat))
    (address : String) (slots : List (String × Nat))
    (start_block end_block step : Int) : List (String × List (Int × String)) :=
  (blockList start_block end_block step).foldl
    (fun out b =>
      slots.foldl (fun out p => append_obs out p.1 (b, sample_at w3 address p.2 b)) out)
    (init_out slots)

/-- A reader that always succeeds with the single byte `0xAA`. -/
def reader_aa : String → Nat → Int → Except String (List Nat) :=
  fun _ _ _ => Except.ok [170]

/-- A reader that always succeeds with the single byte `0x01`. -/
def reader_one : String → Nat → Int → Except String (List Nat) :=
  fun _ _ _ => Except.ok [1]

/-- A reader that fails with "timeout" at block 1500 and otherwise
returns the byte `0x01` (the spec's Scenario C). -/
def reader_timeout : String → Nat → Int → Except String (List Nat) :=
  fun _ _ b => if b = 1500 then Except.error "timeout" else Except.ok [1]

/-- A reader that always succeeds with the single byte `0x02`. -/
def reader_const2 : String → Nat → Int → Except String (List Nat) :=
  fun _ _ _ => Except.ok [2]

/-- A reader that always succeeds with no bytes. -/
def reader_nil : String → Nat → Int → Except String (List Nat) :=
  fun _ _ _ => Except.ok []

/-- C1 (code bug): on the spec's Scenario A input — a perfectly valid
one — `scan_timeline` does not complete: the progress code raises
`NameError` (undefined `start_time`) on the first sampled block instead
of being advisory, whereas the spec-repaired loop returns the expected
timeline for every slot label. -/
theorem scan_timeline_progress_crash :
    (scan_timeline reader_aa "0xAddr" [("slotA", 0)] 1000 1000 500).1 =
      Except.error "NameError: name start_time is not defined" ∧
    scan_timeline_fixed reader_aa "0xAddr" [("slotA", 0)] 1000 1000 500 =
      [("slotA", [(1000, "0xaa")])] := by
  exact ⟨rfl, by decide⟩

/-- C6 (code bug): a reader failure at `(slot, block 1500)` is meant to
be recorded in-band while every other pair is recorded as in the
failure-free run; the actual `scan_timeline` instead raises the
`start_time` NameError before recording anything. The repaired loop
shows the intended behavior (Scenario C) and its agreement with the
failure-free run off the failing pair. -/
theorem scan_timeline_failure_not_isolated :
    (scan_timeline reader_timeout "0xAddr" [("s", 0)] 1000 2000 500).1 =
      Except.error "NameError: name start_time is not defined" ∧
    scan_timeline_fixed reader_timeout "0xAddr" [("s", 0)] 1000 2000 500 =
      [("s", [(1000, "0x01"), (1500, "ERROR:timeout"), (2000, "0x01")])] ∧
    scan_timeline_fixed reader_one "0xAddr" [("s", 0)] 1000 2000 500 =
      [("s", [(1000, "0x01"), (1500, "0x01"), (2000, "0x01")])] := by
  exact ⟨rfl, by decide, by decide⟩

/-- C10 counterexample: with two slots sharing the label `"s"`,
`scan_timeline` does not return the interleaved single timeline the
claim describes — it returns no timelines at all, raising the
`start_time` NameError. -/
theorem scan_timeline_duplicate_label_cex :
    (scan_timeline reader_const2 "0xAddr" [("s", 0), ("s", 1)] 1000 2000 500).1 ≠
      Except.ok [("s", [(1000, "0x02"), (1000, "0x02"), (1500, "0x02"),
        (1500, "0x02"), (2000, "0x02"), (2000, "0x02")])] ∧
    (scan_timeline reader_const2 "0xAddr" [("s", 0), ("s", 1)] 1000 2000 500).1 =
      Except.error "NameError: name start_time is not defined" := by
  have h : (scan_timeline reader_const2 "0xAddr" [("s", 0), ("s", 1)] 1000 2000 500).1 =
      Except.error "NameError: name start_time is not defined" := rfl
  refine ⟨?_, h⟩
  rw [h]
  intro hc
  exact Except.noConfusion hc

/-- The observations block `b` contributes to the series of label `lbl`:
one per slot carrying that label, in slot order. -/
def slot_obs (w3 : String → Nat → Int → Except String (List Nat))
    (address : String) (slots : List (String × Nat)) (lbl : String) (b : Int) :
    List (Int × String) :=
  (slots.filter (fun p => p.1 == lbl)).map (fun p => (b, sample_at w3 address p.2 b))

theorem scan_inner_fold (w3 : String → Nat → Int → Except String (List Nat))
    (address : String) (b : Int) :
    ∀ (slots : List (String × Nat)) (out : List (String × List (Int × String))),
      slots.foldl (fun out p => append_obs out p.1 (b, sample_at w3 address p.2 b)) out
        = out.map (fun q => (q.1, q.2 ++ slot_obs w3 address slots q.1 b)) := by
  intro slots
  induction slots with
  | nil =>
    intro out
    simp [slot_obs]
  | cons p rest ih =>
    intro out
    rw [List.foldl_cons, ih, append_obs, List.map_map]
    apply List.map_congr_left
    intro q _
    by_cases hq : q.1 = p.1
    · simp only [Function.comp, hq, if_pos, slot_obs, List.filter_cons]
      have : (p.1 == q.1) = true := by simp [hq]
      simp [this, hq]
    · simp only [Function.comp, hq, if_neg, slot_obs, List.filter_cons]
      have : (p.1 == q.1) = false := by simp; intro hc; exact hq hc.symm
      simp [this, hq]

theorem scan_outer_fold (w3 : String → Nat → Int → Except String (List Nat))
    (address : String) (slots : List (String × Nat)) :
    ∀ (bl : List Int) (out : List (String × List (Int × String))),
      bl.foldl
        (fun out b =>
          slots.foldl (fun out p => append_obs out p.1 (b, sample_at w3 address p.2 b)) out)
        out
        = out.map (fun q =>
            (q.1, q.2 ++ (bl.map (fun b => slot_obs w3 address slots q.1 b)).flatten)) := by
  intro bl
  induction bl with
  | nil =>
    intro out
    simp
  | cons b rest ih =>
    intro out
    rw [List.foldl_cons, scan_inner_fold, ih, List.map_map]
    apply List.map_congr_left
    intro q _
    simp [Function.comp, List.append_assoc]

/-- Closed form of the repaired scan: each initialized label's series is
the concatenation, over sampled blocks in order, of that block's
contributions to the label. -/
theorem scan_timeline_fixed_eq (w3 : String → Nat → Int → Except String (List Nat))
    (address : String) (slots : List (String × Nat)) (s e st : Int) :
    scan_timeline_fixed w3 address slots s e st
      = (init_out slots).map (fun q =>
          (q.1, q.2 ++ ((blockList s e st).map
            (fun b => slot_obs w3 address slots q.1 b)).flatten)) := by
  rw [scan_timeline_fixed, scan_outer_fold]

theorem flatten_pairs_length {α β : Type} (f g : α → β) (bl : List α) :
    ((bl.map (fun b => [f b, g b])).flatten).length = 2 * bl.length := by
  induction bl with
  | nil => simp
  | cons b rest ih =>
    simp only [List.map_cons, List.flatten_cons, List.length_append, List.length_cons,
      List.length_nil, ih]
    omega

/-- C10 (amended): with the `start_time` defect repaired, two SlotSpecs
sharing one label produce a single timeline under that label holding the
observations of both slots interleaved block by block — two entries per
sampled block, not one. -/
theorem scan_fixed_duplicate_label (w3 : String → Nat → Int → Except String (List Nat))
    (address l : String) (i j : Nat) (s e st : Int) :
    scan_timeline_fixed w3 address [(l, i), (l, j)] s e st
      = [(l, ((blockList s e st).map
          (fun b => [(b, sample_at w3 address i b), (b, sample_at w3 address j b)])).flatten)] ∧
    (scan_timeline_fixed w3 address [(l, i), (l, j)] s e st).map (fun q => q.2.length)
      = [2 * (blockList s e st).length] := by
  have hinit : init_out [(l, i), (l, j)] = [(l, [])] := by
    simp [init_out]
  have hobs : ∀ b : Int, slot_obs w3 address [(l, i), (l, j)] l b
      = [(b, sample_at w3 address i b), (b, sample_at w3 address j b)] := by
    intro b
    simp [slot_obs]
  have hmain : scan_timeline_fixed w3 address [(l, i), (l, j)] s e st
      = [(l, ((blockList s e st).map
          (fun b => [(b, sample_at w3 address i b), (b, sample_at w3 address j b)])).flatten)] := by
    rw [scan_timeline_fixed_eq, hinit]
    simp only [List.map_cons, List.map_nil, List.nil_append]
    have hmap : (blockList s e st).map (fun b => slot_obs w3 address [(l, i), (l, j)] l b)
        = (blockList s e st).map
            (fun b => [(b, sample_at w3 address i b), (b, sample_at w3 address j b)]) :=
      List.map_congr_left (fun b _ => hobs b)
    rw [hmap]
  refine ⟨hmain, ?_⟩
  rw [hmain]
  simp only [List.map_cons, List.map_nil]
  rw [flatten_pairs_length (fun b => ((b : Int), sample_at w3 address i b))
    (fun b => ((b : Int), sample_at w3 address j b))]

/-- `app.py` lines 172-177: the single pass of `main` over the timelines
building `change_report` and accumulating
`total_changes += max(0, len(changes) - 1)`. Result: the report
(insertion order preserved) and the total. -/
def assemble_report (timeline : List (String × List (Int × String))) :
    List (String × List (Int × String)) × Int :=
  timeline.foldl
    (fun acc p =>
      (acc.1 ++ [(p.1, summarize_changes p.2)],
        acc.2 + max 0 (((summarize_changes p.2).length : Int) - 1)))
    ([], 0)

/-- `app.py` line 185: `ok = total_changes == 0`, the soundness verdict. -/
def sound_of (timeline : List (String × List (Int × String))) : Bool :=
  (assemble_report timeline).2 == 0

theorem assemble_report_total :
    ∀ (tl : List (String × List (Int × String)))
      (l0 : List (String × List (Int × String))) (a : Int),
      (tl.foldl
        (fun acc p =>
          (acc.1 ++ [(p.1, summarize_changes p.2)],
            acc.2 + max 0 (((summarize_changes p.2).length : Int) - 1)))
        (l0, a)).2
        = a + (tl.map (fun p => max 0 (((summarize_changes p.2).length : Int) - 1))).sum := by
  intro tl
  induction tl with
  | nil => intro l0 a; simp
  | cons p rest ih =>
    intro l0 a
    rw [List.foldl_cons]
    rw [ih]
    simp [add_assoc]

theorem sum_max_eq_zero_iff (tl : List (String × List (Int × String))) :
    (tl.map (fun p => max 0 (((summarize_changes p.2).length : Int) - 1))).sum = 0 ↔
      ∀ p ∈ tl, max 0 (((summarize_changes p.2).length : Int) - 1) = 0 := by
  induction tl with
  | nil => simp
  | cons p rest ih =>
    simp only [List.map_cons, List.sum_cons, List.mem_cons]
    have h1 : (0 : Int) ≤ max 0 (((summarize_changes p.2).length : Int) - 1) :=
      le_max_left _ _
    have h2 : (0 : Int) ≤
        (rest.map (fun p => max 0 (((summarize_changes p.2).length : Int) - 1))).sum := by
      apply List.sum_nonneg
      intro x hx
      rcases List.mem_map.mp hx with ⟨q, _, rfl⟩
      exact le_max_left _ _
    constructor
    · intro h
      have hp : max 0 (((summarize_changes p.2).length : Int) - 1) = 0 := by omega
      have hr := ih.mp (by omega)
      intro q hq
      rcases hq with hq | hq
      · rw [hq]; exact hp
      · exact hr q hq
    · intro h
      have hp := h p (Or.inl rfl)
      have hr := ih.mpr (fun q hq => h q (Or.inr hq))
      omega

/-- C7: `total_changes` is the sum over labels of
`max(0, change_point_count - 1)`; when every timeline is non-empty it
vanishes exactly when every summarized series has length 1; the verdict
`ok` holds exactly when `total_changes` is zero. -/
theorem assemble_report_spec (tl : List (String × List (Int × String)))
    (h : ∀ p ∈ tl, p.2 ≠ []) :
    (assemble_report tl).2
        = (tl.map (fun p => max 0 (((summarize_changes p.2).length : Int) - 1))).sum ∧
    ((assemble_report tl).2 = 0 ↔ ∀ p ∈ tl, (summarize_changes p.2).length = 1) ∧
    (sound_of tl = true ↔ (assemble_report tl).2 = 0) := by
  have htot : (assemble_report tl).2
      = (tl.map (fun p => max 0 (((summarize_changes p.2).length : Int) - 1))).sum := by
    rw [assemble_report, assemble_report_total]
    omega
  refine ⟨htot, ?_, ?_⟩
  · rw [htot, sum_max_eq_zero_iff]
    constructor
    · intro hz p hp
      have := hz p hp
      have hne := summarize_changes_ne_nil p.2 (h p hp)
      have hlen : 1 ≤ (summarize_changes p.2).length :=
        List.length_pos.mpr hne
      omega
    · intro hone p hp
      have := hone p hp
      omega
  · rw [sound_of]
    exact beq_iff_eq

/-- Witness for `assemble_report_spec` on a one-label, one-observation
timeline (the spec's Scenario A shape). -/
theorem assemble_report_spec_witness :
    (∀ p ∈ [("a", [((1000 : Int), "0xaa")])], p.2 ≠ ([] : List (Int × String))) ∧
    ((assemble_report [("a", [((1000 : Int), "0xaa")])]).2
        = ([("a", [((1000 : Int), "0xaa")])].map
            (fun p => max 0 (((summarize_changes p.2).length : Int) - 1))).sum ∧
      ((assemble_report [("a", [((1000 : Int), "0xaa")])]).2 = 0 ↔
        ∀ p ∈ [("a", [((1000 : Int), "0xaa")])], (summarize_changes p.2).length = 1) ∧
      (sound_of [("a", [((1000 : Int), "0xaa")])] = true ↔
        (assemble_report [("a", [((1000 : Int), "0xaa")])]).2 = 0)) :=
  ⟨by decide, assemble_report_spec [("a", [((1000 : Int), "0xaa")])] (by decide)⟩

/-- `app.py` lines 131-168 and 185-204, abridged to what decides control
flow. Lines 134-139 reject an inverted range or a non-positive stride
with exit status 1 before the address, the slots and the RPC endpoint
are even looked at; `inputs_ok` abstracts the outcome of those later
checks (lines 141-155), which likewise exit 1 on failure before any
scanning. Only then does `scan_timeline` run; an exception escaping it
(the `start_time` NameError) is an uncaught Python exception, exit
status 1, and otherwise line 204 exits 0 when the report is sound and 2
when not. The result pairs the exit status with the number of
StorageReader calls performed. -/
def main_run (w3 : String → Nat → Int → Except String (List Nat))
    (address : String) (slots : List (String × Nat)) (inputs_ok : Bool)
    (from_block to_block step : Int) : Nat × Nat :=
  if from_block > to_block then (1, 0)
  else if step ≤ 0 then (1, 0)
  else if inputs_ok = false then (1, 0)
  else
    match scan_timeline w3 address slots from_block to_block step with
    | (Except.error _, calls) => (1, calls)
    | (Except.ok tl, calls) =>
      ((if (assemble_report tl).2 == 0 then 0 else 2), calls)

/-- C8: an inverted range or a non-positive stride is rejected before
scanning: the run exits with status 1 (non-zero) and performs zero
StorageReader calls. -/
theorem main_rejects_invalid_range
    (w3 : String → Nat → Int → Except String (List Nat)) (address : String)
    (slots : List (String × Nat)) (ok : Bool) (fromB toB st : Int)
    (h : toB < fromB ∨ st ≤ 0) :
    main_run w3 address slots ok fromB toB st = (1, 0) ∧
    (main_run w3 address slots ok fromB toB st).1 ≠ 0 := by
  have hm : main_run w3 address slots ok fromB toB st = (1, 0) := by
    rcases h with h | h
    · rw [main_run, if_pos h]
    · by_cases h2 : fromB > toB
      · rw [main_run, if_pos h2]
      · rw [main_run, if_neg h2, if_pos h]
  refine ⟨hm, ?_⟩
  rw [hm]
  decide

/-- Witness for `main_rejects_invalid_range` with the inverted range
`from_block = 2 > to_block = 1`. -/
theorem main_rejects_invalid_range_witness :
    ((1 : Int) < 2 ∨ (500 : Int) ≤ 0) ∧
    (main_run reader_nil "0xAddr" [] true 2 1 500 = (1, 0) ∧
      (main_run reader_nil "0xAddr" [] true 2 1 500).1 ≠ 0) :=
  ⟨Or.inl (by decide),
    main_rejects_invalid_range reader_nil "0xAddr" [] true 2 1 500 (Or.inl (by decide))⟩
